import Mathlib

/-!
Shallow embedding of the triangular-element local-basis engine of HFPx3D.

The repository carries two parallel implementations of the same logic:
the namespaced refactor `src/ele_base.cpp` (namespace hfp3d) and the
procedural original `src/Ele_Base.cpp` (global scope; embedded here in
namespace EB).  C++ doubles are modelled as real numbers and
`std::complex<double>` as `ℂ`; `il::StaticArray<double,3>` becomes
`Fin 3 → ℝ` and `il::StaticArray2D<double,m,n>` becomes
`Matrix (Fin m) (Fin n) ℝ` (entry `(j,k)` is `M j k`).  The source never
raises an exception and never guards a division, so every embedded
function is total; real division by zero follows Lean's `x / 0 = 0`
convention, standing in for the source's unchecked IEEE division.
-/

set_option maxHeartbeats 1600000

noncomputable section

namespace hfp3d

/-- Summation pattern `a[0]*b[0] + a[1]*b[1] + a[2]*b[2]` used by the norm
loop of `l2norm` (and by the proofs below for row products). -/
def dot3 (a b : Fin 3 → ℝ) : ℝ := a 0 * b 0 + a 1 * b 1 + a 2 * b 2

/-- L2 norm of a 3-vector (`ele_base.cpp`, `l2norm` / `il::norm(a, L2)`):
square root of the sum of squared components. -/
def l2norm (a : Fin 3 → ℝ) : ℝ := Real.sqrt (dot3 a a)

/-- Componentwise division of a 3-vector by its L2 norm
(`ele_base.cpp`, `normalize`). -/
def normalize (a : Fin 3 → ℝ) : Fin 3 → ℝ := fun k => a k / l2norm a

/-- Cross product of two 3-vectors (`ele_base.cpp`, `cross`). -/
def cross (a b : Fin 3 → ℝ) : Fin 3 → ℝ :=
  ![a 1 * b 2 - a 2 * b 1, a 2 * b 0 - a 0 * b 2, a 0 * b 1 - a 1 * b 0]

/-- First edge vector `a1[j] = el_vert(j,1) - el_vert(j,0)` of
`make_el_r_tensor`. -/
def el_a1 (ev : Matrix (Fin 3) (Fin 3) ℝ) : Fin 3 → ℝ := fun j => ev j 1 - ev j 0

/-- Second edge vector `a2[j] = el_vert(j,2) - el_vert(j,0)` of
`make_el_r_tensor`. -/
def el_a2 (ev : Matrix (Fin 3) (Fin 3) ℝ) : Fin 3 → ℝ := fun j => ev j 2 - ev j 0

/-- Local basis vector `e1 = normalize(a1)` of `make_el_r_tensor`. -/
def el_e1 (ev : Matrix (Fin 3) (Fin 3) ℝ) : Fin 3 → ℝ := normalize (el_a1 ev)

/-- Raw normal `a3 = cross(e1, a2)` of `make_el_r_tensor`. -/
def el_a3 (ev : Matrix (Fin 3) (Fin 3) ℝ) : Fin 3 → ℝ := cross (el_e1 ev) (el_a2 ev)

/-- Local basis vector `e3 = normalize(a3)` of `make_el_r_tensor`. -/
def el_e3 (ev : Matrix (Fin 3) (Fin 3) ℝ) : Fin 3 → ℝ := normalize (el_a3 ev)

/-- Local basis vector `e2 = normalize(cross(e3, e1))` of
`make_el_r_tensor`. -/
def el_e2 (ev : Matrix (Fin 3) (Fin 3) ℝ) : Fin 3 → ℝ :=
  normalize (cross (el_e3 ev) (el_e1 ev))

/-- Rotation tensor of `ele_base.cpp`, `make_el_r_tensor`: the basis
vectors `e1, e2, e3` are stored as the ROWS
(`r_tensor(0,j) = e1[j]`, etc.), i.e. the global-to-local transform. -/
def make_el_r_tensor (ev : Matrix (Fin 3) (Fin 3) ℝ) : Matrix (Fin 3) (Fin 3) ℝ :=
  Matrix.of ![el_e1 ev, el_e2 ev, el_e3 ev]

/-- Vertex difference `vv[n] = el_vert(n, k+1) - el_vert(n, 0)` from the
`k` loop of `make_el_tau_2_mc`. -/
def el_vv (ev : Matrix (Fin 3) (Fin 3) ℝ) (k : Fin 2) : Fin 3 → ℝ :=
  fun n => ev n k.succ - ev n 0

/-- Rotated vertex difference `xsi = il::dot(r_tensor, vv)` of
`make_el_tau_2_mc`. -/
def el_xsi (ev r : Matrix (Fin 3) (Fin 3) ℝ) (k : Fin 2) : Fin 3 → ℝ :=
  r.mulVec (el_vv ev k)

/-- Local complex coordinate `z23[k] = complex(xsi[0], xsi[1])` of
`make_el_tau_2_mc`. -/
def el_z23 (ev r : Matrix (Fin 3) (Fin 3) ℝ) (k : Fin 2) : ℂ :=
  ⟨el_xsi ev r k 0, el_xsi ev r k 1⟩

/-- Common denominator (determinant)
`m_det = z23[0]*conj(z23[1]) - z23[1]*conj(z23[0])` of
`make_el_tau_2_mc`. -/
def el_mdet (ev r : Matrix (Fin 3) (Fin 3) ℝ) : ℂ :=
  el_z23 ev r 0 * (starRingEnd ℂ) (el_z23 ev r 1) -
    el_z23 ev r 1 * (starRingEnd ℂ) (el_z23 ev r 0)

/-- Conformal map of `ele_base.cpp`, `make_el_tau_2_mc`: the inverse
transform matrix, each entry divided by the determinant `m_det`.  The
source performs the division unconditionally, with no degeneracy
check. -/
def make_el_tau_2_mc (ev r : Matrix (Fin 3) (Fin 3) ℝ) : Matrix (Fin 2) (Fin 2) ℂ :=
  Matrix.of
    ![![(starRingEnd ℂ) (el_z23 ev r 1) / el_mdet ev r, -el_z23 ev r 1 / el_mdet ev r],
      ![-(starRingEnd ℂ) (el_z23 ev r 0) / el_mdet ev r, el_z23 ev r 0 / el_mdet ev r]]

/-- Return type of `make_el_pt_hz` (struct `HZ` of `ele_base.h`). -/
structure HZ where
  h : ℝ
  z : ℂ

/-- Point localizer of `ele_base.cpp`, `make_el_pt_hz`: translate the
point by the first vertex, rotate by `r_tensor`, then
`h = -m_pt_c_r[2]` and `z = complex(m_pt_c_r[0], m_pt_c_r[1])`. -/
def make_el_pt_hz (ev : Matrix (Fin 3) (Fin 3) ℝ) (m_pt_crd : Fin 3 → ℝ)
    (r : Matrix (Fin 3) (Fin 3) ℝ) : HZ :=
  let m := r.mulVec (fun k => m_pt_crd k - ev k 0)
  ⟨-m 2, ⟨m 0, m 1⟩⟩

/-- Master coefficient matrix `sfm_mc` of `make_el_sfm_uniform`
(real values of the assigned complex entries; unassigned entries are
zero), rows over the monomials `[1, x, y, x^2, y^2, x*y]`. -/
def sfm_mc_r_uniform : Matrix (Fin 6) (Fin 6) ℝ :=
  Matrix.of ![![1, -3, -3, 2, 2, 4],
              ![0, -1, 0, 2, 0, 0],
              ![0, 0, -1, 0, 2, 0],
              ![0, 0, 0, 0, 0, 4],
              ![0, 0, 4, 0, -4, -4],
              ![0, 4, 0, -4, 0, -4]]

/-- Master coefficient matrix `sfm_mc` of `make_el_sfm_nonuniform`,
built from the weight ratios `p12 = w0/w1`, `p13 = w0/w2`,
`p23 = w1/w2` and the derived `c...` doubles, exactly as in the source
(the divisions are unchecked). -/
def sfm_mc_r_nonuniform (w : Fin 3 → ℝ) : Matrix (Fin 6) (Fin 6) ℝ :=
  let p12 := w 0 / w 1
  let p13 := w 0 / w 2
  let p23 := w 1 / w 2
  let c122 := p12 + 1
  let c121 := 1 / p12 + 1
  let c12q := c121 + c122
  let c233 := p23 + 1
  let c232 := 1 / p23 + 1
  let c23q := c232 + c233
  let c133 := p13 + 1
  let c131 := 1 / p13 + 1
  let c13q := c131 + c133
  Matrix.of ![![1, -p12 - 2, -p13 - 2, c122, c133, p13 + p12 + 2],
              ![0, -1 / p12, 0, c121, 0, 1 / p12 - p23],
              ![0, 0, -1 / p13, 0, c131, 1 / p13 - 1 / p23],
              ![0, 0, 0, 0, 0, c23q],
              ![0, 0, c13q, 0, -c13q, -c13q],
              ![0, c12q, 0, -c12q, 0, -c12q]]

/-- Entrywise inclusion of a real matrix into the complex matrices: the
source stores the (real-valued) master coefficients in a
`StaticArray2D<std::complex<double>, 6, 6>`. -/
def cmplx (M : Matrix (Fin 6) (Fin 6) ℝ) : Matrix (Fin 6) (Fin 6) ℂ :=
  M.map (fun x => (x : ℂ))

/-- Quadratic extension `cq` of the 2x2 transform `t` (both sfm
builders): `cq(j,k) = t(j,k)^2` for `j,k <= 1`,
`cq(j,2) = 2 t(j,0) t(j,1)`, `cq(2,j) = t(0,j) t(1,j)`,
`cq(2,2) = t(0,0) t(1,1) + t(1,0) t(0,1)`. -/
def el_cq (t : Matrix (Fin 2) (Fin 2) ℂ) : Matrix (Fin 3) (Fin 3) ℂ :=
  Matrix.of ![![t 0 0 * t 0 0, t 0 1 * t 0 1, 2 * (t 0 0) * (t 0 1)],
              ![t 1 0 * t 1 0, t 1 1 * t 1 1, 2 * (t 1 0) * (t 1 1)],
              ![t 0 0 * t 1 0, t 0 1 * t 1 1, t 0 0 * t 1 1 + t 1 0 * t 0 1]]

/-- Block basis-change matrix `tau_sq_2_mc` of both sfm builders: 1 in
the constant slot, `t` in the linear block, `cq t` in the quadratic
block, zero elsewhere. -/
def tau_sq_2_mc (t : Matrix (Fin 2) (Fin 2) ℂ) : Matrix (Fin 6) (Fin 6) ℂ :=
  Matrix.of ![![1, 0, 0, 0, 0, 0],
              ![0, t 0 0, t 0 1, 0, 0, 0],
              ![0, t 1 0, t 1 1, 0, 0, 0],
              ![0, 0, 0, el_cq t 0 0, el_cq t 0 1, el_cq t 0 2],
              ![0, 0, 0, el_cq t 1 0, el_cq t 1 1, el_cq t 1 2],
              ![0, 0, 0, el_cq t 2 0, el_cq t 2 1, el_cq t 2 2]]

/-- Shape-function matrix of `ele_base.cpp`, `make_el_sfm_uniform`:
`sfm = il::dot(sfm_mc, tau_sq_2_mc)` with the uniform master matrix;
the out-parameter `r_tensor` it also produces equals
`make_el_r_tensor ev`. -/
def make_el_sfm_uniform (ev : Matrix (Fin 3) (Fin 3) ℝ) : Matrix (Fin 6) (Fin 6) ℂ :=
  cmplx sfm_mc_r_uniform * tau_sq_2_mc (make_el_tau_2_mc ev (make_el_r_tensor ev))

/-- Shape-function matrix of `ele_base.cpp`, `make_el_sfm_nonuniform`:
like the uniform builder but with the weight-dependent master matrix.
No weight validation is performed by the source. -/
def make_el_sfm_nonuniform (ev : Matrix (Fin 3) (Fin 3) ℝ) (w : Fin 3 → ℝ) :
    Matrix (Fin 6) (Fin 6) ℂ :=
  cmplx (sfm_mc_r_nonuniform w) * tau_sq_2_mc (make_el_tau_2_mc ev (make_el_r_tensor ev))

/-- Shift matrix of `ele_base.cpp`, `shift_el_sfm`, in the monomial
basis `[1, tau, conj tau, tau^2, conj tau ^2, tau * conj tau]`. -/
def shift_el_sfm (z : ℂ) : Matrix (Fin 6) (Fin 6) ℂ :=
  let zc := (starRingEnd ℂ) z
  Matrix.of ![![1, 0, 0, 0, 0, 0],
              ![z, 1, 0, 0, 0, 0],
              ![zc, 0, 1, 0, 0, 0],
              ![z * z, 2 * z, 0, 1, 0, 0],
              ![zc * zc, 0, 2 * zc, 0, 1, 0],
              ![z * zc, zc, z, 0, 0, 1]]

/-- Element centroid `el_centroid[j] = sum of el_vert(j,k)/3.0` of the
collocation builders. -/
def el_centroid (ev : Matrix (Fin 3) (Fin 3) ℝ) : Fin 3 → ℝ :=
  fun j => ev j 0 / 3 + ev j 1 / 3 + ev j 2 / 3

/-- Bounds-checked access to column `k` of the vertex matrix: the C++
array `el_vert`/`EV` has 3 columns, so an access with `k >= 3` reads
out of bounds and has no value in a total embedding. -/
def vcol (ev : Matrix (Fin 3) (Fin 3) ℝ) (k : ℕ) : Option (Fin 3 → ℝ) :=
  if h : k < 3 then some (fun j => ev j ⟨k, h⟩) else none

/-- Bounds-checked access to entry `k` of the 3-entry weight array. -/
def wget (vw : Fin 3 → ℝ) (k : ℕ) : Option ℝ :=
  if h : k < 3 then some (vw ⟨k, h⟩) else none

/-- Collocation points of `ele_base.cpp`, `el_cp_uniform`: point `n`
(`n = 0,1,2`) blends vertex `n` with the centroid; point `n+3` uses the
adjacent columns `m = (n+1) % 3` and `l = (m+1) % 3` (so, for point
index `p = n+3`, the columns `m = (p-3+1) % 3` and `l = (m+1) % 3`). -/
def el_cp_uniform (ev : Matrix (Fin 3) (Fin 3) ℝ) (beta : ℝ) :
    Fin 6 → Option (Fin 3 → ℝ) := fun n =>
  if hn : (n : ℕ) < 3 then
    some (fun j => (1 - beta) * ev j ⟨n, hn⟩ + beta * el_centroid ev j)
  else
    let m := ((n : ℕ) - 3 + 1) % 3
    let l := (m + 1) % 3
    match vcol ev m, vcol ev l with
    | some vm, some vl =>
        some (fun j => 0.5 * (1 - beta) * (vm j + vl j) + beta * el_centroid ev j)
    | _, _ => none

/-- Collocation points of `ele_base.cpp`, `el_cp_nonuniform`: edge point
`n+3` is the weighted average of columns `m` and `l` (same `% 3`
indices as the uniform variant), weights `vw[m]`, `vw[l]`. -/
def el_cp_nonuniform (ev : Matrix (Fin 3) (Fin 3) ℝ) (vw : Fin 3 → ℝ) (beta : ℝ) :
    Fin 6 → Option (Fin 3 → ℝ) := fun n =>
  if hn : (n : ℕ) < 3 then
    some (fun j => (1 - beta) * ev j ⟨n, hn⟩ + beta * el_centroid ev j)
  else
    let m := ((n : ℕ) - 3 + 1) % 3
    let l := (m + 1) % 3
    match vcol ev m, vcol ev l, wget vw m, wget vw l with
    | some vm, some vl, some um, some ul =>
        some (fun j =>
          (1 - beta) * (um * vm j + ul * vl j) / (um + ul) + beta * el_centroid ev j)
    | _, _, _, _ => none

end hfp3d

namespace EB

/-- L2 norm of a 3-vector (`Ele_Base.cpp`, `VNorm`): the same summation
loop followed by a square root. -/
def VNorm (a : Fin 3 → ℝ) : ℝ := Real.sqrt (hfp3d.dot3 a a)

/-- Componentwise division by `VNorm` (`Ele_Base.cpp`, `normalize`;
defined at global scope in the source). -/
def normalize (a : Fin 3 → ℝ) : Fin 3 → ℝ := fun k => a k / VNorm a

/-- Cross product (`Ele_Base.cpp`, `cross`; global scope in the
source). -/
def cross (a b : Fin 3 → ℝ) : Fin 3 → ℝ :=
  ![a 1 * b 2 - a 2 * b 1, a 2 * b 0 - a 0 * b 2, a 0 * b 1 - a 1 * b 0]

/-- Edge vector `a1[n] = EV(n,1) - EV(n,0)` of `El_LB_RT`. -/
def lb_a1 (ev : Matrix (Fin 3) (Fin 3) ℝ) : Fin 3 → ℝ := fun n => ev n 1 - ev n 0

/-- Edge vector `a2[n] = EV(n,2) - EV(n,0)` of `El_LB_RT`. -/
def lb_a2 (ev : Matrix (Fin 3) (Fin 3) ℝ) : Fin 3 → ℝ := fun n => ev n 2 - ev n 0

/-- Basis vector `e1 = normalize(a1)` of `El_LB_RT`. -/
def lb_e1 (ev : Matrix (Fin 3) (Fin 3) ℝ) : Fin 3 → ℝ := normalize (lb_a1 ev)

/-- Basis vector `e3 = normalize(cross(e1, a2))` of `El_LB_RT`. -/
def lb_e3 (ev : Matrix (Fin 3) (Fin 3) ℝ) : Fin 3 → ℝ :=
  normalize (cross (lb_e1 ev) (lb_a2 ev))

/-- Basis vector `e2 = normalize(cross(e3, e1))` of `El_LB_RT`. -/
def lb_e2 (ev : Matrix (Fin 3) (Fin 3) ℝ) : Fin 3 → ℝ :=
  normalize (cross (lb_e3 ev) (lb_e1 ev))

/-- Rotation tensor of `Ele_Base.cpp`, `El_LB_RT`: the basis vectors are
stored as the COLUMNS (`RM(j,0) = e1[j]`, etc.), i.e. the
local-to-global transform, transposed relative to
`hfp3d.make_el_r_tensor`. -/
def El_LB_RT (ev : Matrix (Fin 3) (Fin 3) ℝ) : Matrix (Fin 3) (Fin 3) ℝ :=
  Matrix.transpose (Matrix.of ![lb_e1 ev, lb_e2 ev, lb_e3 ev])

/-- Vertex difference `VV[n] = EV(n,k+1) - EV(n,0)` from the `k` loop of
`El_CT`. -/
def ct_VV (ev : Matrix (Fin 3) (Fin 3) ℝ) (k : Fin 2) : Fin 3 → ℝ :=
  fun n => ev n k.succ - ev n 0

/-- Rotated vertex difference `xsi = il::dot(VV, RM)` of `El_CT` (a
row-vector times matrix product, `RM` being the columnwise tensor). -/
def ct_xsi (ev : Matrix (Fin 3) (Fin 3) ℝ) (k : Fin 2) : Fin 3 → ℝ :=
  Matrix.vecMul (ct_VV ev k) (El_LB_RT ev)

/-- Local complex coordinate `z23[k]` of `El_CT`. -/
def ct_z23 (ev : Matrix (Fin 3) (Fin 3) ℝ) (k : Fin 2) : ℂ :=
  ⟨ct_xsi ev k 0, ct_xsi ev k 1⟩

/-- Common denominator `Dt = z23[0]*conj(z23[1]) - z23[1]*conj(z23[0])`
of `El_CT`. -/
def ct_Dt (ev : Matrix (Fin 3) (Fin 3) ℝ) : ℂ :=
  ct_z23 ev 0 * (starRingEnd ℂ) (ct_z23 ev 1) -
    ct_z23 ev 1 * (starRingEnd ℂ) (ct_z23 ev 0)

/-- Conformal map of `Ele_Base.cpp`, `El_CT` (it internally calls
`El_LB_RT` and divides by `Dt` unconditionally). -/
def El_CT (ev : Matrix (Fin 3) (Fin 3) ℝ) : Matrix (Fin 2) (Fin 2) ℂ :=
  Matrix.of
    ![![(starRingEnd ℂ) (ct_z23 ev 1) / ct_Dt ev, -ct_z23 ev 1 / ct_Dt ev],
      ![-(starRingEnd ℂ) (ct_z23 ev 0) / ct_Dt ev, ct_z23 ev 0 / ct_Dt ev]]

/-- Master coefficient matrix `SFM_M` of `El_SFM_S` (the procedural
file's own copy; numerically identical to
`hfp3d.sfm_mc_r_uniform`). -/
def SFM_M_S : Matrix (Fin 6) (Fin 6) ℝ :=
  Matrix.of ![![1, -3, -3, 2, 2, 4],
              ![0, -1, 0, 2, 0, 0],
              ![0, 0, -1, 0, 2, 0],
              ![0, 0, 0, 0, 0, 4],
              ![0, 0, 4, 0, -4, -4],
              ![0, 4, 0, -4, 0, -4]]

/-- Master coefficient matrix `SFM_M` of `El_SFM_N`, from the weight
ratios `P12 = VW[0]/VW[1]` etc. (the procedural file's own copy). -/
def SFM_M_N (vw : Fin 3 → ℝ) : Matrix (Fin 6) (Fin 6) ℝ :=
  let P12 := vw 0 / vw 1
  let P13 := vw 0 / vw 2
  let P23 := vw 1 / vw 2
  let C122 := P12 + 1
  let C121 := 1 / P12 + 1
  let C12q := C121 + C122
  let C233 := P23 + 1
  let C232 := 1 / P23 + 1
  let C23q := C232 + C233
  let C133 := P13 + 1
  let C131 := 1 / P13 + 1
  let C13q := C131 + C133
  Matrix.of ![![1, -P12 - 2, -P13 - 2, C122, C133, P13 + P12 + 2],
              ![0, -1 / P12, 0, C121, 0, 1 / P12 - P23],
              ![0, 0, -1 / P13, 0, C131, 1 / P13 - 1 / P23],
              ![0, 0, 0, 0, 0, C23q],
              ![0, 0, C13q, 0, -C13q, -C13q],
              ![0, C12q, 0, -C12q, 0, -C12q]]

/-- Quadratic extension `CQ` of the 2x2 transform `CT` (both procedural
sfm builders; same formulas as `hfp3d.el_cq`). -/
def CQ (t : Matrix (Fin 2) (Fin 2) ℂ) : Matrix (Fin 3) (Fin 3) ℂ :=
  Matrix.of ![![t 0 0 * t 0 0, t 0 1 * t 0 1, 2 * (t 0 0) * (t 0 1)],
              ![t 1 0 * t 1 0, t 1 1 * t 1 1, 2 * (t 1 0) * (t 1 1)],
              ![t 0 0 * t 1 0, t 0 1 * t 1 1, t 0 0 * t 1 1 + t 1 0 * t 0 1]]

/-- Block basis-change matrix `CTau` of both procedural sfm builders. -/
def CTau (t : Matrix (Fin 2) (Fin 2) ℂ) : Matrix (Fin 6) (Fin 6) ℂ :=
  Matrix.of ![![1, 0, 0, 0, 0, 0],
              ![0, t 0 0, t 0 1, 0, 0, 0],
              ![0, t 1 0, t 1 1, 0, 0, 0],
              ![0, 0, 0, CQ t 0 0, CQ t 0 1, CQ t 0 2],
              ![0, 0, 0, CQ t 1 0, CQ t 1 1, CQ t 1 2],
              ![0, 0, 0, CQ t 2 0, CQ t 2 1, CQ t 2 2]]

/-- Shape-function matrix of `Ele_Base.cpp`, `El_SFM_S`:
`SFM = il::dot(SFM_M, CTau)`; its rotation out-parameter `RT` is the
columnwise `El_LB_RT` tensor. -/
def El_SFM_S (ev : Matrix (Fin 3) (Fin 3) ℝ) : Matrix (Fin 6) (Fin 6) ℂ :=
  hfp3d.cmplx SFM_M_S * CTau (El_CT ev)

/-- Shape-function matrix of `Ele_Base.cpp`, `El_SFM_N` (non-uniform
weights; no validation of the weights is performed). -/
def El_SFM_N (ev : Matrix (Fin 3) (Fin 3) ℝ) (vw : Fin 3 → ℝ) : Matrix (Fin 6) (Fin 6) ℂ :=
  hfp3d.cmplx (SFM_M_N vw) * CTau (El_CT ev)

/-- Column index `m = (n-2) & 3` computed by `El_CP_S` and `El_CP_N`
for edge point `n` (`n = 3,4,5`): a bitwise AND, i.e. mod 4. -/
def cp_m (n : ℕ) : ℕ := (n - 2) &&& 3

/-- Column index `l = (m+1) & 3` computed by `El_CP_S` and `El_CP_N`
for edge point `n`. -/
def cp_l (n : ℕ) : ℕ := (cp_m n + 1) &&& 3

/-- Centroid `EC[j]` of `El_CP_S` / `El_CP_N` (same sum as
`hfp3d.el_centroid`). -/
def EC (ev : Matrix (Fin 3) (Fin 3) ℝ) : Fin 3 → ℝ :=
  fun j => ev j 0 / 3 + ev j 1 / 3 + ev j 2 / 3

/-- Collocation points of `Ele_Base.cpp`, `El_CP_S`: vertex points as in
the namespaced variant, but edge point `n` reads columns `cp_m n` and
`cp_l n` of `EV`, computed with `& 3` instead of `% 3`. -/
def El_CP_S (ev : Matrix (Fin 3) (Fin 3) ℝ) (beta : ℝ) :
    Fin 6 → Option (Fin 3 → ℝ) := fun n =>
  if hn : (n : ℕ) < 3 then
    some (fun j => (1 - beta) * ev j ⟨n, hn⟩ + beta * EC ev j)
  else
    match hfp3d.vcol ev (cp_m n), hfp3d.vcol ev (cp_l n) with
    | some vm, some vl =>
        some (fun j => 0.5 * (1 - beta) * (vm j + vl j) + beta * EC ev j)
    | _, _ => none

/-- Collocation points of `Ele_Base.cpp`, `El_CP_N`: weighted edge
points, with the same `& 3` column indices (also used to read the
3-entry weight array `VW`). -/
def El_CP_N (ev : Matrix (Fin 3) (Fin 3) ℝ) (vw : Fin 3 → ℝ) (beta : ℝ) :
    Fin 6 → Option (Fin 3 → ℝ) := fun n =>
  if hn : (n : ℕ) < 3 then
    some (fun j => (1 - beta) * ev j ⟨n, hn⟩ + beta * EC ev j)
  else
    match hfp3d.vcol ev (cp_m n), hfp3d.vcol ev (cp_l n),
        hfp3d.wget vw (cp_m n), hfp3d.wget vw (cp_l n) with
    | some vm, some vl, some um, some ul =>
        some (fun j =>
          (1 - beta) * (um * vm j + ul * vl j) / (um + ul) + beta * EC ev j)
    | _, _, _, _ => none

end EB

/-- Concrete scenario triangle of the spec: vertices (0,0,0), (1,0,0),
(0,1,0) stored as the columns of the vertex matrix. -/
def utri : Matrix (Fin 3) (Fin 3) ℝ :=
  Matrix.of ![![0, 1, 0], ![0, 0, 1], ![0, 0, 0]]

/-- Degenerate (colinear) triangle of the spec: vertices (0,0,0),
(1,0,0), (2,0,0) stored as the columns of the vertex matrix. -/
def colinTri : Matrix (Fin 3) (Fin 3) ℝ :=
  Matrix.of ![![0, 1, 2], ![0, 0, 0], ![0, 0, 0]]


/-- Evaluation of row i of a master coefficient matrix as a polynomial
over the monomials [1, x, y, x^2, y^2, x*y] (the order documented in
both sfm builders) at a master-triangle point (x, y). -/
def evalP (M : Matrix (Fin 6) (Fin 6) ℝ) (i : Fin 6) (x y : ℝ) : ℝ :=
  M i 0 + M i 1 * x + M i 2 * y + M i 3 * x ^ 2 + M i 4 * y ^ 2 + M i 5 * (x * y)

/-- Master-triangle x-coordinates of the six collocation nodes for the
uniform (midpoint) partition: vertices (0,0), (1,0), (0,1), then the
midpoints of the edges opposite nodes 0, 1, 2 in turn (the edge-node
order of the collocation builders). -/
def unodeX : Fin 6 → ℝ := ![0, 1, 0, 1/2, 0, 1/2]

/-- Master-triangle y-coordinates of the six uniform collocation
nodes. -/
def unodeY : Fin 6 → ℝ := ![0, 0, 1, 1/2, 1/2, 0]

/-- Master-triangle x-coordinates of the six collocation nodes for the
weighted partition: edge node 3 divides the edge between master
vertices (1,0) and (0,1) in proportion to the weights w1, w2, and so on
(these are the partition locations el_cp_nonuniform places at beta = 0,
read in master coordinates). -/
def wnodeX (w : Fin 3 → ℝ) : Fin 6 → ℝ :=
  ![0, 1, 0, w 1 / (w 1 + w 2), 0, w 1 / (w 0 + w 1)]

/-- Master-triangle y-coordinates of the six weighted collocation
nodes. -/
def wnodeY (w : Fin 3 → ℝ) : Fin 6 → ℝ :=
  ![0, 0, 1, w 2 / (w 1 + w 2), w 2 / (w 2 + w 0), 0]

/-- Evaluation of row i of a shape-function matrix as a polynomial over
the complex monomials [1, tau, conj tau, tau^2, conj tau ^ 2,
tau * conj tau] (the monomial order of the sfm builders) at a local
complex coordinate tau. -/
def evalRow (sfm : Matrix (Fin 6) (Fin 6) ℂ) (i : Fin 6) (tau : ℂ) : ℂ :=
  sfm i 0 + sfm i 1 * tau + sfm i 2 * (starRingEnd ℂ) tau + sfm i 3 * tau ^ 2 +
    sfm i 4 * ((starRingEnd ℂ) tau) ^ 2 + sfm i 5 * (tau * (starRingEnd ℂ) tau)

/-!
Helper lemmas: entry evaluation for vector literals (with a generic
tail, so that they match eta-expanded goals), shared across the claim
proofs below.
-/

section VecLemmas

variable {α : Type}

@[simp] lemma cv6_1 (a : α) (t : Fin 5 → α) : Matrix.vecCons a t (1 : Fin 6) = t 0 := rfl

@[simp] lemma cv6_2 (a : α) (t : Fin 5 → α) : Matrix.vecCons a t (2 : Fin 6) = t 1 := rfl

@[simp] lemma cv6_3 (a : α) (t : Fin 5 → α) : Matrix.vecCons a t (3 : Fin 6) = t 2 := rfl

@[simp] lemma cv6_4 (a : α) (t : Fin 5 → α) : Matrix.vecCons a t (4 : Fin 6) = t 3 := rfl

@[simp] lemma cv6_5 (a : α) (t : Fin 5 → α) : Matrix.vecCons a t (5 : Fin 6) = t 4 := rfl

@[simp] lemma cv5_1 (a : α) (t : Fin 4 → α) : Matrix.vecCons a t (1 : Fin 5) = t 0 := rfl

@[simp] lemma cv5_2 (a : α) (t : Fin 4 → α) : Matrix.vecCons a t (2 : Fin 5) = t 1 := rfl

@[simp] lemma cv5_3 (a : α) (t : Fin 4 → α) : Matrix.vecCons a t (3 : Fin 5) = t 2 := rfl

@[simp] lemma cv5_4 (a : α) (t : Fin 4 → α) : Matrix.vecCons a t (4 : Fin 5) = t 3 := rfl

@[simp] lemma cv4_1 (a : α) (t : Fin 3 → α) : Matrix.vecCons a t (1 : Fin 4) = t 0 := rfl

@[simp] lemma cv4_2 (a : α) (t : Fin 3 → α) : Matrix.vecCons a t (2 : Fin 4) = t 1 := rfl

@[simp] lemma cv4_3 (a : α) (t : Fin 3 → α) : Matrix.vecCons a t (3 : Fin 4) = t 2 := rfl

@[simp] lemma cv3_1 (a : α) (t : Fin 2 → α) : Matrix.vecCons a t (1 : Fin 3) = t 0 := rfl

@[simp] lemma cv3_2 (a : α) (t : Fin 2 → α) : Matrix.vecCons a t (2 : Fin 3) = t 1 := rfl

@[simp] lemma cv2_1 (a : α) (t : Fin 1 → α) : Matrix.vecCons a t (1 : Fin 2) = t 0 := rfl

@[simp] lemma mk6_0 (h : 0 < 6) : (⟨0, h⟩ : Fin 6) = 0 := rfl

@[simp] lemma mk6_1 (h : 1 < 6) : (⟨1, h⟩ : Fin 6) = 1 := rfl

@[simp] lemma mk6_2 (h : 2 < 6) : (⟨2, h⟩ : Fin 6) = 2 := rfl

@[simp] lemma mk6_3 (h : 3 < 6) : (⟨3, h⟩ : Fin 6) = 3 := rfl

@[simp] lemma mk6_4 (h : 4 < 6) : (⟨4, h⟩ : Fin 6) = 4 := rfl

@[simp] lemma mk6_5 (h : 5 < 6) : (⟨5, h⟩ : Fin 6) = 5 := rfl

@[simp] lemma mk3_0 (h : 0 < 3) : (⟨0, h⟩ : Fin 3) = 0 := rfl

@[simp] lemma mk3_1 (h : 1 < 3) : (⟨1, h⟩ : Fin 3) = 1 := rfl

@[simp] lemma mk3_2 (h : 2 < 3) : (⟨2, h⟩ : Fin 3) = 2 := rfl

@[simp] lemma mk2_0 (h : 0 < 2) : (⟨0, h⟩ : Fin 2) = 0 := rfl

@[simp] lemma mk2_1 (h : 1 < 2) : (⟨1, h⟩ : Fin 2) = 1 := rfl

end VecLemmas

/-!
Helper lemmas about the 3-vector primitives, shared by the claim proofs.
-/

lemma dot3_comm (a b : Fin 3 → ℝ) : hfp3d.dot3 a b = hfp3d.dot3 b a := by
  simp only [hfp3d.dot3]
  ring

lemma dot3_nonneg (a : Fin 3 → ℝ) : 0 ≤ hfp3d.dot3 a a := by
  simp only [hfp3d.dot3]
  nlinarith [mul_self_nonneg (a 0), mul_self_nonneg (a 1), mul_self_nonneg (a 2)]

lemma l2norm_mul_self (a : Fin 3 → ℝ) :
    hfp3d.l2norm a * hfp3d.l2norm a = hfp3d.dot3 a a :=
  Real.mul_self_sqrt (dot3_nonneg a)

lemma dot3_normalize_left (a b : Fin 3 → ℝ) :
    hfp3d.dot3 (hfp3d.normalize a) b = hfp3d.dot3 a b / hfp3d.l2norm a := by
  simp only [hfp3d.dot3, hfp3d.normalize]
  ring

lemma dot3_normalize_self (a : Fin 3 → ℝ) :
    hfp3d.dot3 (hfp3d.normalize a) (hfp3d.normalize a) =
      hfp3d.dot3 a a / (hfp3d.l2norm a * hfp3d.l2norm a) := by
  simp only [hfp3d.dot3, hfp3d.normalize]
  ring

lemma dot3_cross_left (u v : Fin 3 → ℝ) : hfp3d.dot3 (hfp3d.cross u v) u = 0 := by
  simp only [hfp3d.dot3, hfp3d.cross, Matrix.cons_val_zero, cv3_1, cv3_2, cv2_1]
  ring

lemma dot3_cross_right (u v : Fin 3 → ℝ) : hfp3d.dot3 (hfp3d.cross u v) v = 0 := by
  simp only [hfp3d.dot3, hfp3d.cross, Matrix.cons_val_zero, cv3_1, cv3_2, cv2_1]
  ring

lemma dot3_cross_lagrange (u v : Fin 3 → ℝ) :
    hfp3d.dot3 (hfp3d.cross u v) (hfp3d.cross u v) =
      hfp3d.dot3 u u * hfp3d.dot3 v v - hfp3d.dot3 u v * hfp3d.dot3 u v := by
  simp only [hfp3d.dot3, hfp3d.cross, Matrix.cons_val_zero, cv3_1, cv3_2, cv2_1]
  ring

lemma mul_transpose_entry (R : Matrix (Fin 3) (Fin 3) ℝ) (i j : Fin 3) :
    (R * Matrix.transpose R) i j = hfp3d.dot3 (R i) (R j) := by
  simp [Matrix.mul_apply, Matrix.transpose_apply, Fin.sum_univ_three, hfp3d.dot3]

/-!
Helper lemmas relating the two implementations, and concrete
evaluations at the spec's two scenario triangles.
-/

lemma ellbrt_eq (ev : Matrix (Fin 3) (Fin 3) ℝ) :
    EB.El_LB_RT ev = Matrix.transpose (hfp3d.make_el_r_tensor ev) := rfl

lemma elct_eq (ev : Matrix (Fin 3) (Fin 3) ℝ) :
    EB.El_CT ev = hfp3d.make_el_tau_2_mc ev (hfp3d.make_el_r_tensor ev) := by
  have hxsi : ∀ k, EB.ct_xsi ev k = hfp3d.el_xsi ev (hfp3d.make_el_r_tensor ev) k := by
    intro k
    show Matrix.vecMul (EB.ct_VV ev k)
        (Matrix.transpose (Matrix.of ![EB.lb_e1 ev, EB.lb_e2 ev, EB.lb_e3 ev])) = _
    rw [Matrix.vecMul_transpose]
    rfl
  have hz : ∀ k, EB.ct_z23 ev k = hfp3d.el_z23 ev (hfp3d.make_el_r_tensor ev) k := by
    intro k
    unfold EB.ct_z23 hfp3d.el_z23
    rw [hxsi]
  have hdt : EB.ct_Dt ev = hfp3d.el_mdet ev (hfp3d.make_el_r_tensor ev) := by
    unfold EB.ct_Dt hfp3d.el_mdet
    rw [hz, hz]
  unfold EB.El_CT hfp3d.make_el_tau_2_mc
  rw [hz, hz, hdt]

lemma normalize_of_dot_one (v : Fin 3 → ℝ) (h : hfp3d.dot3 v v = 1) :
    hfp3d.normalize v = v := by
  funext k
  simp only [hfp3d.normalize, hfp3d.l2norm, h, Real.sqrt_one, div_one]

lemma normalize_zero_vec : hfp3d.normalize ![0, 0, 0] = ![0, 0, 0] := by
  funext k
  fin_cases k <;> simp [hfp3d.normalize]

lemma utri_a1 : hfp3d.el_a1 utri = ![1, 0, 0] := by
  funext k
  fin_cases k <;> norm_num [hfp3d.el_a1, utri, Matrix.of_apply, Matrix.vecHead, Matrix.vecTail]

lemma utri_a2 : hfp3d.el_a2 utri = ![0, 1, 0] := by
  funext k
  fin_cases k <;> norm_num [hfp3d.el_a2, utri, Matrix.of_apply, Matrix.vecHead, Matrix.vecTail]

lemma utri_e1 : hfp3d.el_e1 utri = ![1, 0, 0] := by
  rw [hfp3d.el_e1, utri_a1, normalize_of_dot_one _ (by norm_num [hfp3d.dot3])]

lemma utri_a3 : hfp3d.el_a3 utri = ![0, 0, 1] := by
  rw [hfp3d.el_a3, utri_e1, utri_a2]
  funext k
  fin_cases k <;> norm_num [hfp3d.cross, Matrix.vecHead, Matrix.vecTail]

lemma utri_e3 : hfp3d.el_e3 utri = ![0, 0, 1] := by
  rw [hfp3d.el_e3, utri_a3, normalize_of_dot_one _ (by norm_num [hfp3d.dot3])]

lemma utri_e2 : hfp3d.el_e2 utri = ![0, 1, 0] := by
  rw [hfp3d.el_e2, utri_e3, utri_e1]
  have hcr : hfp3d.cross ![0, 0, 1] ![1, 0, 0] = ![0, 1, 0] := by
    funext k
    fin_cases k <;> norm_num [hfp3d.cross, Matrix.vecHead, Matrix.vecTail]
  rw [hcr, normalize_of_dot_one _ (by norm_num [hfp3d.dot3])]

lemma rt_utri : hfp3d.make_el_r_tensor utri = 1 := by
  rw [Matrix.one_fin_three]
  simp only [hfp3d.make_el_r_tensor]
  rw [utri_e1, utri_e2, utri_e3]

lemma utri_vv0 : hfp3d.el_vv utri 0 = ![1, 0, 0] := by
  funext n
  fin_cases n <;>
    norm_num [hfp3d.el_vv, utri, Matrix.of_apply, Fin.succ_zero_eq_one,
      Matrix.vecHead, Matrix.vecTail]

lemma utri_vv1 : hfp3d.el_vv utri 1 = ![0, 1, 0] := by
  funext n
  fin_cases n <;>
    norm_num [hfp3d.el_vv, utri, Matrix.of_apply, Fin.succ_one_eq_two,
      Matrix.vecHead, Matrix.vecTail]

lemma utri_z0 : hfp3d.el_z23 utri (hfp3d.make_el_r_tensor utri) 0 = 1 := by
  simp only [hfp3d.el_z23, hfp3d.el_xsi, rt_utri, utri_vv0, Matrix.one_mulVec]
  apply Complex.ext <;> norm_num

lemma utri_z1 : hfp3d.el_z23 utri (hfp3d.make_el_r_tensor utri) 1 = Complex.I := by
  simp only [hfp3d.el_z23, hfp3d.el_xsi, rt_utri, utri_vv1, Matrix.one_mulVec]
  apply Complex.ext <;> norm_num

lemma utri_mdet :
    hfp3d.el_mdet utri (hfp3d.make_el_r_tensor utri) = -2 * Complex.I := by
  simp only [hfp3d.el_mdet, utri_z0, utri_z1, map_one, Complex.conj_I]
  ring

lemma tau2mc_utri :
    hfp3d.make_el_tau_2_mc utri (hfp3d.make_el_r_tensor utri) =
      Matrix.of ![![1 / 2, 1 / 2], ![-Complex.I / 2, Complex.I / 2]] := by
  have h2I : (-2 * Complex.I : ℂ) ≠ 0 :=
    mul_ne_zero (by norm_num) Complex.I_ne_zero
  ext i j
  fin_cases i <;> fin_cases j <;>
    simp only [hfp3d.make_el_tau_2_mc, utri_z0, utri_z1, utri_mdet, map_one,
      Complex.conj_I, Matrix.of_apply, Matrix.cons_val_zero, cv2_1, mk2_0, mk2_1] <;>
    rw [div_eq_iff h2I] <;>
    first
    | ring1
    | linear_combination Complex.I_sq
    | linear_combination (-1 : ℂ) * Complex.I_sq

lemma colin_a1 : hfp3d.el_a1 colinTri = ![1, 0, 0] := by
  funext k
  fin_cases k <;> norm_num [hfp3d.el_a1, colinTri, Matrix.of_apply, Matrix.vecHead, Matrix.vecTail]

lemma colin_a2 : hfp3d.el_a2 colinTri = ![2, 0, 0] := by
  funext k
  fin_cases k <;> norm_num [hfp3d.el_a2, colinTri, Matrix.of_apply, Matrix.vecHead, Matrix.vecTail]

lemma colin_e1 : hfp3d.el_e1 colinTri = ![1, 0, 0] := by
  rw [hfp3d.el_e1, colin_a1, normalize_of_dot_one _ (by norm_num [hfp3d.dot3])]

lemma colin_a3 : hfp3d.el_a3 colinTri = ![0, 0, 0] := by
  rw [hfp3d.el_a3, colin_e1, colin_a2]
  funext k
  fin_cases k <;> norm_num [hfp3d.cross, Matrix.vecHead, Matrix.vecTail]

lemma colin_norm_a3 : hfp3d.l2norm (hfp3d.el_a3 colinTri) = 0 := by
  rw [colin_a3]
  norm_num [hfp3d.l2norm, hfp3d.dot3, Real.sqrt_zero]

lemma colin_e3 : hfp3d.el_e3 colinTri = ![0, 0, 0] := by
  rw [hfp3d.el_e3, colin_a3, normalize_zero_vec]

lemma colin_e2 : hfp3d.el_e2 colinTri = ![0, 0, 0] := by
  rw [hfp3d.el_e2, colin_e3, colin_e1]
  have hcr : hfp3d.cross ![0, 0, 0] ![1, 0, 0] = ![0, 0, 0] := by
    funext k
    fin_cases k <;> norm_num [hfp3d.cross, Matrix.vecHead, Matrix.vecTail]
  rw [hcr, normalize_zero_vec]

lemma rt_colin :
    hfp3d.make_el_r_tensor colinTri =
      Matrix.of ![![1, 0, 0], ![0, 0, 0], ![0, 0, 0]] := by
  simp only [hfp3d.make_el_r_tensor]
  rw [colin_e1, colin_e2, colin_e3]

lemma colin_vv0 : hfp3d.el_vv colinTri 0 = ![1, 0, 0] := by
  funext n
  fin_cases n <;>
    norm_num [hfp3d.el_vv, colinTri, Matrix.of_apply, Fin.succ_zero_eq_one,
      Matrix.vecHead, Matrix.vecTail]

lemma colin_vv1 : hfp3d.el_vv colinTri 1 = ![2, 0, 0] := by
  funext n
  fin_cases n <;>
    norm_num [hfp3d.el_vv, colinTri, Matrix.of_apply, Fin.succ_one_eq_two,
      Matrix.vecHead, Matrix.vecTail]

lemma colin_z0 : hfp3d.el_z23 colinTri (hfp3d.make_el_r_tensor colinTri) 0 = 1 := by
  simp only [hfp3d.el_z23, hfp3d.el_xsi, rt_colin, colin_vv0, Matrix.mulVec,
    Matrix.dotProduct, Fin.sum_univ_three, Matrix.of_apply, Matrix.cons_val_zero,
    cv3_1, cv3_2, cv2_1]
  apply Complex.ext <;> norm_num

lemma colin_z1 : hfp3d.el_z23 colinTri (hfp3d.make_el_r_tensor colinTri) 1 = 2 := by
  simp only [hfp3d.el_z23, hfp3d.el_xsi, rt_colin, colin_vv1, Matrix.mulVec,
    Matrix.dotProduct, Fin.sum_univ_three, Matrix.of_apply, Matrix.cons_val_zero,
    cv3_1, cv3_2, cv2_1]
  apply Complex.ext <;> norm_num

lemma colin_mdet : hfp3d.el_mdet colinTri (hfp3d.make_el_r_tensor colinTri) = 0 := by
  simp only [hfp3d.el_mdet, colin_z0, colin_z1, map_one, map_ofNat]
  ring

lemma tau2mc_colin :
    hfp3d.make_el_tau_2_mc colinTri (hfp3d.make_el_r_tensor colinTri) = 0 := by
  ext i j
  fin_cases i <;> fin_cases j <;>
    simp [hfp3d.make_el_tau_2_mc, colin_mdet, div_zero]

lemma sfm_n_entry00 (ev : Matrix (Fin 3) (Fin 3) ℝ) (w : Fin 3 → ℝ) :
    hfp3d.make_el_sfm_nonuniform ev w 0 0 = 1 := by
  simp [hfp3d.make_el_sfm_nonuniform, Matrix.mul_apply, Fin.sum_univ_six,
    hfp3d.tau_sq_2_mc, hfp3d.cmplx, hfp3d.sfm_mc_r_nonuniform, Matrix.map_apply,
    Matrix.of_apply, Matrix.cons_val_zero, Matrix.vecHead, Matrix.vecTail]

lemma EB_sfm_n_entry00 (ev : Matrix (Fin 3) (Fin 3) ℝ) (w : Fin 3 → ℝ) :
    EB.El_SFM_N ev w 0 0 = 1 := by
  simp [EB.El_SFM_N, Matrix.mul_apply, Fin.sum_univ_six, EB.CTau, hfp3d.cmplx,
    EB.SFM_M_N, Matrix.map_apply, Matrix.of_apply, Matrix.cons_val_zero,
    Matrix.vecHead, Matrix.vecTail]

/-- Claim C1: for both shape-function variants (uniform, and non-uniform
with strictly positive vertex weights), evaluating the master-triangle
polynomial of shape function i (row i of the master coefficient matrix
over the monomials [1, x, y, x^2, y^2, x*y]) at the master coordinate
of collocation node j (vertices (0,0), (1,0), (0,1); edge nodes at
their partition locations) yields exactly 1 when i = j and exactly 0
otherwise. -/
theorem c1_nodal_kronecker :
    (∀ i j : Fin 6,
      evalP hfp3d.sfm_mc_r_uniform i (unodeX j) (unodeY j) = if i = j then 1 else 0) ∧
    (∀ w : Fin 3 → ℝ, 0 < w 0 → 0 < w 1 → 0 < w 2 → ∀ i j : Fin 6,
      evalP (hfp3d.sfm_mc_r_nonuniform w) i (wnodeX w j) (wnodeY w j) =
        if i = j then 1 else 0) := by
  constructor
  · intro i j
    fin_cases i <;> fin_cases j <;>
      (first | rw [if_pos rfl] | rw [if_neg (by decide)]) <;>
      simp only [mk6_0, mk6_1, mk6_2, mk6_3, mk6_4, mk6_5, evalP, unodeX, unodeY,
        hfp3d.sfm_mc_r_uniform, Matrix.of_apply, Matrix.cons_val_zero, cv6_1, cv6_2,
        cv6_3, cv6_4, cv6_5, cv5_1, cv5_2, cv5_3, cv5_4, cv4_1, cv4_2, cv4_3, cv3_1,
        cv3_2, cv2_1] <;>
      norm_num
  · intro w h0 h1 h2 i j
    have e0 : w 0 ≠ 0 := h0.ne'
    have e1 : w 1 ≠ 0 := h1.ne'
    have e2 : w 2 ≠ 0 := h2.ne'
    have s12 : w 1 + w 2 ≠ 0 := by positivity
    have s20 : w 2 + w 0 ≠ 0 := by positivity
    have s01 : w 0 + w 1 ≠ 0 := by positivity
    fin_cases i <;> fin_cases j <;>
      (first | rw [if_pos rfl] | rw [if_neg (by decide)]) <;>
      simp only [mk6_0, mk6_1, mk6_2, mk6_3, mk6_4, mk6_5, evalP, wnodeX, wnodeY,
        hfp3d.sfm_mc_r_nonuniform, Matrix.of_apply, Matrix.cons_val_zero, cv6_1, cv6_2,
        cv6_3, cv6_4, cv6_5, cv5_1, cv5_2, cv5_3, cv5_4, cv4_1, cv4_2, cv4_3, cv3_1,
        cv3_2, cv2_1] <;>
      (first | (field_simp; ring1) | ring1)

/-- Claim C1, witness: the non-uniform part of the theorem applied to
the weight triple (1,2,3) at nodes i = j = 3, giving the value 1. -/
theorem c1_nodal_kronecker_witness :
    evalP (hfp3d.sfm_mc_r_nonuniform ![1, 2, 3]) 3 (wnodeX ![1, 2, 3] 3)
      (wnodeY ![1, 2, 3] 3) = 1 := by
  have h := c1_nodal_kronecker.2 ![1, 2, 3] (by norm_num) (by norm_num) (by norm_num) 3 3
  simpa using h

/-- Claim C9: for every non-degenerate element (both normalize steps of
the frame construction receive a vector of nonzero length, which is
exactly non-colinearity of the vertices), the rotation tensor R
satisfies (transpose R) * R = 1 (here: exactly, which is within the
claimed 1e-10) and det R = 1. -/
theorem c9_frame_orthonormal (ev : Matrix (Fin 3) (Fin 3) ℝ)
    (h1 : hfp3d.l2norm (hfp3d.el_a1 ev) ≠ 0)
    (h3 : hfp3d.l2norm (hfp3d.el_a3 ev) ≠ 0) :
    Matrix.transpose (hfp3d.make_el_r_tensor ev) * hfp3d.make_el_r_tensor ev = 1 ∧
    (hfp3d.make_el_r_tensor ev).det = 1 := by
  have hS1 : hfp3d.dot3 (hfp3d.el_a1 ev) (hfp3d.el_a1 ev) ≠ 0 := by
    rw [← l2norm_mul_self]
    exact mul_ne_zero h1 h1
  have hS3 : hfp3d.dot3 (hfp3d.el_a3 ev) (hfp3d.el_a3 ev) ≠ 0 := by
    rw [← l2norm_mul_self]
    exact mul_ne_zero h3 h3
  have He1 : hfp3d.dot3 (hfp3d.el_e1 ev) (hfp3d.el_e1 ev) = 1 := by
    simp only [hfp3d.el_e1]
    rw [dot3_normalize_self, l2norm_mul_self]
    exact div_self hS1
  have He3 : hfp3d.dot3 (hfp3d.el_e3 ev) (hfp3d.el_e3 ev) = 1 := by
    simp only [hfp3d.el_e3]
    rw [dot3_normalize_self, l2norm_mul_self]
    exact div_self hS3
  have H31 : hfp3d.dot3 (hfp3d.el_e3 ev) (hfp3d.el_e1 ev) = 0 := by
    simp only [hfp3d.el_e3, hfp3d.el_a3]
    rw [dot3_normalize_left, dot3_cross_left, zero_div]
  have Hc : hfp3d.dot3 (hfp3d.cross (hfp3d.el_e3 ev) (hfp3d.el_e1 ev))
      (hfp3d.cross (hfp3d.el_e3 ev) (hfp3d.el_e1 ev)) = 1 := by
    rw [dot3_cross_lagrange, He3, He1, H31]
    ring
  have hn2 : hfp3d.l2norm (hfp3d.cross (hfp3d.el_e3 ev) (hfp3d.el_e1 ev)) = 1 := by
    simp only [hfp3d.l2norm]
    rw [Hc, Real.sqrt_one]
  have He2eq : hfp3d.el_e2 ev = hfp3d.cross (hfp3d.el_e3 ev) (hfp3d.el_e1 ev) := by
    funext k
    simp only [hfp3d.el_e2, hfp3d.normalize]
    rw [hn2, div_one]
  have He2 : hfp3d.dot3 (hfp3d.el_e2 ev) (hfp3d.el_e2 ev) = 1 := by
    rw [He2eq]
    exact Hc
  have H21 : hfp3d.dot3 (hfp3d.el_e2 ev) (hfp3d.el_e1 ev) = 0 := by
    rw [He2eq]
    exact dot3_cross_right _ _
  have H23 : hfp3d.dot3 (hfp3d.el_e2 ev) (hfp3d.el_e3 ev) = 0 := by
    rw [He2eq]
    exact dot3_cross_left _ _
  have hrow0 : hfp3d.make_el_r_tensor ev 0 = hfp3d.el_e1 ev := rfl
  have hrow1 : hfp3d.make_el_r_tensor ev 1 = hfp3d.el_e2 ev := rfl
  have hrow2 : hfp3d.make_el_r_tensor ev 2 = hfp3d.el_e3 ev := rfl
  have hRRt : hfp3d.make_el_r_tensor ev * Matrix.transpose (hfp3d.make_el_r_tensor ev) = 1 := by
    rw [Matrix.one_fin_three]
    ext i j
    rw [mul_transpose_entry]
    fin_cases i <;> fin_cases j <;>
      simp only [mk3_0, mk3_1, mk3_2, hrow0, hrow1, hrow2, Matrix.of_apply,
        Matrix.cons_val_zero, cv3_1, cv3_2, cv2_1] <;>
      first
      | exact He1 | exact He2 | exact He3 | exact H21 | exact H23 | exact H31
      | (rw [dot3_comm]; first | exact He1 | exact H21 | exact H23 | exact H31)
  constructor
  · exact Matrix.mul_eq_one_comm.mp hRRt
  · have hdet : (hfp3d.make_el_r_tensor ev).det =
        hfp3d.dot3 (hfp3d.el_e1 ev) (hfp3d.el_e1 ev) *
          hfp3d.dot3 (hfp3d.el_e3 ev) (hfp3d.el_e3 ev) -
        hfp3d.dot3 (hfp3d.el_e1 ev) (hfp3d.el_e3 ev) *
          hfp3d.dot3 (hfp3d.el_e1 ev) (hfp3d.el_e3 ev) := by
      rw [Matrix.det_fin_three]
      simp only [hfp3d.make_el_r_tensor, Matrix.of_apply, Matrix.cons_val_zero, cv3_1,
        cv3_2, cv2_1, He2eq, hfp3d.cross, hfp3d.dot3]
      ring
    rw [hdet, He1, He3, dot3_comm, H31]
    ring

/-- Claim C9, witness: the theorem applied to the concrete scenario
triangle, whose two normalize inputs have norm 1. -/
theorem c9_frame_orthonormal_witness :
    Matrix.transpose (hfp3d.make_el_r_tensor utri) * hfp3d.make_el_r_tensor utri = 1 ∧
    (hfp3d.make_el_r_tensor utri).det = 1 := by
  apply c9_frame_orthonormal
  · norm_num [hfp3d.l2norm, hfp3d.dot3, hfp3d.el_a1, utri, Matrix.of_apply,
      Matrix.cons_val_zero, Real.sqrt_one]
  · norm_num [hfp3d.l2norm, hfp3d.dot3, hfp3d.el_a3, hfp3d.el_a2, hfp3d.el_e1,
      hfp3d.el_a1, hfp3d.normalize, hfp3d.cross, utri, Matrix.of_apply,
      Matrix.cons_val_zero, Matrix.vecHead, Matrix.vecTail, Real.sqrt_one]

/-- Claim C5: for every vertex matrix, weight triple and beta, the
procedural collocation builders compute the adjacent-vertex column
indices of edge points 4 and 5 with a bitwise AND with 3 (mod 4), which
yields the out-of-bounds column index 3 (for point 4 its second index,
for point 5 its first), so the bounds-checked vertex lookup has no
value and those two points are undefined in the total embedding; the
namespaced builders use mod 3 and every one of their 6 points is
defined. -/
theorem c5_cp_out_of_bounds (ev : Matrix (Fin 3) (Fin 3) ℝ) (vw : Fin 3 → ℝ) (beta : ℝ) :
    (EB.cp_m 4 = 2 ∧ EB.cp_l 4 = 3 ∧ EB.cp_m 5 = 3) ∧
    (EB.El_CP_S ev beta 4 = none ∧ EB.El_CP_S ev beta 5 = none ∧
     EB.El_CP_N ev vw beta 4 = none ∧ EB.El_CP_N ev vw beta 5 = none) ∧
    (∀ n : Fin 6, (hfp3d.el_cp_uniform ev beta n).isSome ∧
      (hfp3d.el_cp_nonuniform ev vw beta n).isSome) := by
  have hv4 : ((4 : Fin 6) : ℕ) = 4 := rfl
  have hv5 : ((5 : Fin 6) : ℕ) = 5 := rfl
  have ha : (2 &&& 3 : ℕ) = 2 := rfl
  have hb : ((2 &&& 3) + 1 &&& 3 : ℕ) = 3 := rfl
  have hc : (3 &&& 3 : ℕ) = 3 := rfl
  have hd : ((3 &&& 3) + 1 &&& 3 : ℕ) = 0 := rfl
  refine ⟨⟨rfl, rfl, rfl⟩, ⟨?_, ?_, ?_, ?_⟩, ?_⟩
  · simp [EB.El_CP_S, EB.cp_m, EB.cp_l, hfp3d.vcol, hv4, ha, hb, hc, hd]
  · simp [EB.El_CP_S, EB.cp_m, EB.cp_l, hfp3d.vcol, hv5, ha, hb, hc, hd]
  · simp [EB.El_CP_N, EB.cp_m, EB.cp_l, hfp3d.vcol, hfp3d.wget, hv4, ha, hb, hc, hd]
  · simp [EB.El_CP_N, EB.cp_m, EB.cp_l, hfp3d.vcol, hfp3d.wget, hv5, ha, hb, hc, hd]
  · intro n
    fin_cases n <;>
      simp [hfp3d.el_cp_uniform, hfp3d.el_cp_nonuniform, hfp3d.vcol, hfp3d.wget]

/-- Claim C10: for every element, the point localizer applied (with the
element's rotation tensor) to a point equal to vertex 0 returns z = 0
and h = 0, and applied to a point equal to vertex 1 it returns h = 0
and z equal to the local complex coordinate z23[0] that the conformal
map builder computes for vertex 1. -/
theorem c10_point_localizer (ev : Matrix (Fin 3) (Fin 3) ℝ) :
    ((hfp3d.make_el_pt_hz ev (fun k => ev k 0) (hfp3d.make_el_r_tensor ev)).z = 0 ∧
     (hfp3d.make_el_pt_hz ev (fun k => ev k 0) (hfp3d.make_el_r_tensor ev)).h = 0) ∧
    ((hfp3d.make_el_pt_hz ev (fun k => ev k 1) (hfp3d.make_el_r_tensor ev)).h = 0 ∧
     (hfp3d.make_el_pt_hz ev (fun k => ev k 1) (hfp3d.make_el_r_tensor ev)).z =
       hfp3d.el_z23 ev (hfp3d.make_el_r_tensor ev) 0) := by
  have hm0 : (fun k => ev k 0 - ev k 0) = (0 : Fin 3 → ℝ) := by
    funext k
    simp
  have hrow2 : ∀ v : Fin 3 → ℝ,
      Matrix.mulVec (hfp3d.make_el_r_tensor ev) v 2 = hfp3d.dot3 (hfp3d.el_e3 ev) v := by
    intro v
    simp only [hfp3d.make_el_r_tensor, hfp3d.dot3, Matrix.mulVec, Matrix.dotProduct,
      Fin.sum_univ_three, Matrix.of_apply, cv3_1, cv3_2, cv2_1, Matrix.cons_val_zero]
  have horth : hfp3d.dot3 (hfp3d.el_e3 ev) (fun k => ev k 1 - ev k 0) = 0 := by
    simp only [hfp3d.dot3, hfp3d.el_e3, hfp3d.el_a3, hfp3d.el_e1, hfp3d.el_a1, hfp3d.el_a2,
      hfp3d.normalize, hfp3d.cross, cv3_1, cv3_2, cv2_1, Matrix.cons_val_zero]
    ring
  have hz0 : (fun _ : Fin 3 => (0 : ℝ)) = 0 := rfl
  refine ⟨⟨?_, ?_⟩, ⟨?_, ?_⟩⟩
  · apply Complex.ext <;> simp [hfp3d.make_el_pt_hz, hm0, hz0, Matrix.mulVec_zero]
  · simp [hfp3d.make_el_pt_hz, hm0, hz0, Matrix.mulVec_zero]
  · show -(Matrix.mulVec (hfp3d.make_el_r_tensor ev) (fun k => ev k 1 - ev k 0) 2) = 0
    rw [hrow2, horth, neg_zero]
  · rfl

/-- Claim C3: for every element, the non-uniform shape-function matrix
builder called with three equal (positive) vertex weights returns the
same 6x6 complex matrix as the uniform builder (here: exactly, which is
within the claimed 1e-12). -/
theorem c3_reduction (ev : Matrix (Fin 3) (Fin 3) ℝ) (w : Fin 3 → ℝ)
    (hpos : 0 < w 0) (h01 : w 0 = w 1) (h12 : w 1 = w 2) :
    hfp3d.make_el_sfm_nonuniform ev w = hfp3d.make_el_sfm_uniform ev := by
  have hne : w 0 ≠ 0 := hpos.ne'
  have hmc : hfp3d.sfm_mc_r_nonuniform w = hfp3d.sfm_mc_r_uniform := by
    ext i j
    fin_cases i <;> fin_cases j <;>
      simp [hfp3d.sfm_mc_r_nonuniform, hfp3d.sfm_mc_r_uniform, ← h01, ← h12,
        Matrix.of_apply, Matrix.cons_val_zero, Matrix.vecHead, Matrix.vecTail,
        div_self hne] <;>
      norm_num
  unfold hfp3d.make_el_sfm_nonuniform hfp3d.make_el_sfm_uniform
  rw [hmc]

/-- Claim C3, witness: the theorem applied to the concrete scenario
triangle and the weight triple (1,1,1). -/
theorem c3_reduction_witness :
    hfp3d.make_el_sfm_nonuniform utri ![1, 1, 1] = hfp3d.make_el_sfm_uniform utri :=
  c3_reduction utri ![1, 1, 1] (by norm_num) (by norm_num) (by norm_num)

/-- Claim C4: for every element vertex matrix, the procedural
implementation El_SFM_S and the namespaced implementation
make_el_sfm_uniform return the same 6x6 complex shape-function matrix,
while the rotation tensors they produce (El_LB_RT, columnwise, versus
make_el_r_tensor, rowwise) are transposes of each other. -/
theorem c4_procedural_equiv (ev : Matrix (Fin 3) (Fin 3) ℝ) :
    EB.El_SFM_S ev = hfp3d.make_el_sfm_uniform ev ∧
    EB.El_LB_RT ev = Matrix.transpose (hfp3d.make_el_r_tensor ev) := by
  constructor
  · show hfp3d.cmplx EB.SFM_M_S * EB.CTau (EB.El_CT ev) = _
    rw [elct_eq]
    rfl
  · exact ellbrt_eq ev

/-- Claim C6: for every complex offset z, the matrix product
shift_el_sfm(z) * shift_el_sfm(-z), in the 6-monomial basis
[1, tau, conj tau, tau^2, conj tau ^ 2, tau * conj tau], equals the 6x6
identity matrix (here: exactly, which is within the claimed 1e-10). -/
theorem c6_shift_roundtrip (z : ℂ) :
    hfp3d.shift_el_sfm z * hfp3d.shift_el_sfm (-z) = 1 := by
  ext i j
  fin_cases i <;> fin_cases j <;>
    simp [hfp3d.shift_el_sfm, Matrix.mul_apply, Fin.sum_univ_six, Matrix.one_apply, map_neg,
      Matrix.of_apply, Matrix.cons_val_zero, Matrix.vecHead, Matrix.vecTail] <;>
    ring

/-- Claim C2, counterexample: on the colinear triangle (0,0,0), (1,0,0),
(2,0,0) no error is raised; neither builder has an error path, so both
complete and return values: the frame builder returns a tensor whose
first row is still (1,0,0), the conformal determinant is exactly 0, and
the conformal map builder divides by it and returns a matrix anyway
(zero here, by the embedding's division convention standing for the
source's unchecked IEEE division).  This refutes the claim that both
builders raise DegenerateElementError and never return a numeric
result. -/
theorem c2_degenerate_counterexample :
    hfp3d.make_el_r_tensor colinTri 0 0 = 1 ∧
    EB.El_LB_RT colinTri 0 0 = 1 ∧
    hfp3d.el_mdet colinTri (hfp3d.make_el_r_tensor colinTri) = 0 ∧
    hfp3d.make_el_tau_2_mc colinTri (hfp3d.make_el_r_tensor colinTri) = 0 ∧
    EB.El_CT colinTri = 0 := by
  refine ⟨?_, ?_, colin_mdet, tau2mc_colin, ?_⟩
  · rw [rt_colin]
    norm_num [Matrix.of_apply]
  · rw [ellbrt_eq, Matrix.transpose_apply, rt_colin]
    norm_num [Matrix.of_apply]
  · rw [elct_eq]
    exact tau2mc_colin

/-- Claim C2, amended: on the colinear triangle the degenerate
quantities are exactly zero -- the raw normal a3 = cross(e1, a2) is the
zero vector (so the second normalize step receives a zero-length
input), and the conformal determinant is exactly 0 -- but the code
performs no check and raises nothing: the frame builder returns a
numeric tensor (first row (1,0,0), the remaining rows produced by
dividing the zero vector by its zero norm) and the conformal map
builder divides by the zero determinant and returns a numeric matrix.
No DegenerateElementError exists anywhere in the source. -/
theorem c2_degenerate_amended :
    hfp3d.el_a3 colinTri = ![0, 0, 0] ∧
    hfp3d.l2norm (hfp3d.el_a3 colinTri) = 0 ∧
    hfp3d.make_el_r_tensor colinTri =
      Matrix.of ![![1, 0, 0], ![0, 0, 0], ![0, 0, 0]] ∧
    hfp3d.el_mdet colinTri (hfp3d.make_el_r_tensor colinTri) = 0 ∧
    hfp3d.make_el_tau_2_mc colinTri (hfp3d.make_el_r_tensor colinTri) = 0 :=
  ⟨colin_a3, colin_norm_a3, rt_colin, colin_mdet, tau2mc_colin⟩

/-- Claim C7, counterexample: for the triangle (0,0,0), (1,0,0), (0,1,0)
the conformal map builder returns the matrix with entry (0,0) equal to
1/2, hence not the 2x2 identity matrix as claimed. -/
theorem c7_scenario_counterexample :
    hfp3d.make_el_tau_2_mc utri (hfp3d.make_el_r_tensor utri) 0 0 = 1 / 2 ∧
    hfp3d.make_el_tau_2_mc utri (hfp3d.make_el_r_tensor utri) ≠ 1 := by
  have h00 : hfp3d.make_el_tau_2_mc utri (hfp3d.make_el_r_tensor utri) 0 0 = 1 / 2 := by
    rw [tau2mc_utri]
    norm_num [Matrix.of_apply]
  refine ⟨h00, fun h => ?_⟩
  rw [h] at h00
  rw [Matrix.one_apply_eq] at h00
  norm_num [Complex.ext_iff] at h00

/-- Claim C7, amended: for the triangle (0,0,0), (1,0,0), (0,1,0) both
local frame builders return the 3x3 identity, the conformal map builder
returns the matrix [[1/2, 1/2], [-i/2, i/2]] (which sends (tau, conj
tau) to (x, y) = (Re tau, Im tau), i.e. it represents the identity map
on points, but is not the 2x2 identity matrix), and shape function 0 of
the uniform variant evaluates to 1 at master coordinate (0,0) (tau = 0)
and to 0 at (1,0) (tau = 1) and at (0,1) (tau = i). -/
theorem c7_scenario_amended :
    hfp3d.make_el_r_tensor utri = 1 ∧
    EB.El_LB_RT utri = 1 ∧
    hfp3d.make_el_tau_2_mc utri (hfp3d.make_el_r_tensor utri) =
      Matrix.of ![![1 / 2, 1 / 2], ![-Complex.I / 2, Complex.I / 2]] ∧
    evalRow (hfp3d.make_el_sfm_uniform utri) 0 0 = 1 ∧
    evalRow (hfp3d.make_el_sfm_uniform utri) 0 1 = 0 ∧
    evalRow (hfp3d.make_el_sfm_uniform utri) 0 Complex.I = 0 := by
  have hlb : EB.El_LB_RT utri = 1 := by
    rw [ellbrt_eq, rt_utri, Matrix.transpose_one]
  have hsfm : hfp3d.make_el_sfm_uniform utri =
      hfp3d.cmplx hfp3d.sfm_mc_r_uniform *
        hfp3d.tau_sq_2_mc (Matrix.of ![![1 / 2, 1 / 2], ![-Complex.I / 2, Complex.I / 2]]) := by
    simp only [hfp3d.make_el_sfm_uniform, tau2mc_utri]
  refine ⟨rt_utri, hlb, tau2mc_utri, ?_, ?_, ?_⟩ <;>
    simp only [evalRow, hsfm, Matrix.mul_apply, Fin.sum_univ_six, hfp3d.tau_sq_2_mc,
      hfp3d.el_cq, hfp3d.cmplx, hfp3d.sfm_mc_r_uniform, Matrix.map_apply,
      Matrix.of_apply, Matrix.cons_val_zero, cv6_1, cv6_2, cv6_3, cv6_4, cv6_5,
      cv5_1, cv5_2, cv5_3, cv5_4, cv4_1, cv4_2, cv4_3, cv3_1, cv3_2, cv2_1,
      map_zero, map_one, Complex.conj_I] <;>
    push_cast <;>
    ring_nf <;>
    norm_num [Complex.I_sq]

/-- Claim C8, counterexample: the weight triple (0,1,1) contains a zero
weight, yet the non-uniform builders perform no validation and return a
matrix: entry (0,0) of both implementations is 1 (a numeric result), so
neither fails with InvalidWeightError. -/
theorem c8_weight_counterexample :
    (![0, 1, 1] : Fin 3 → ℝ) 0 ≤ 0 ∧
    hfp3d.make_el_sfm_nonuniform utri ![0, 1, 1] 0 0 = 1 ∧
    EB.El_SFM_N utri ![0, 1, 1] 0 0 = 1 :=
  ⟨by norm_num, sfm_n_entry00 utri _, EB_sfm_n_entry00 utri _⟩

/-- Claim C8, amended: the non-uniform shape-function builders validate
nothing: for every element and every weight triple (zero and negative
weights included) they compute the weight ratios by unchecked division
and return a 6x6 matrix; in particular entry (0,0) of the returned
matrix is always 1.  No InvalidWeightError exists anywhere in the
source. -/
theorem c8_weight_amended (ev : Matrix (Fin 3) (Fin 3) ℝ) (w : Fin 3 → ℝ) :
    hfp3d.make_el_sfm_nonuniform ev w 0 0 = 1 ∧ EB.El_SFM_N ev w 0 0 = 1 :=
  ⟨sfm_n_entry00 ev w, EB_sfm_n_entry00 ev w⟩

end
